import Mathlib

/-!
Verification of the data-access layer of the "rate your leader" application
(`azengineering/rating`).

The TypeScript modules under `src/` are shallowly embedded here: the backing
Supabase store becomes an explicit `Db` record of table rows, each exported
operation becomes a pure function on `Db` (returning the new store and the
operation's result), JavaScript numbers used for ratings become `ℚ`, and
ISO-8601 timestamp strings become epoch-millisecond integers (`Int`).
Operations whose error-path behaviour is under scrutiny additionally take a
flag saying whether the backing-store call reports an error, and return
`Except String _` so that a thrown `Error` is an `Except.error` carrying the
source's message.  Unless such a flag is present, a definition models the
success path (every backing-store call succeeds).  Row ordering performed by
the remote store (`order by` clauses) is abstracted to stored order.
-/

/-- `Number.prototype.toFixed(2)` followed by `parseFloat`, as used for leader
rating averages: round to the nearest multiple of 1/100 (ties away from zero,
here modelled as `round`, i.e. ties upward). -/
def round2 (q : ℚ) : ℚ := (round (q * 100) : ℤ) / 100

/-- Case-insensitive substring test, modelling SQL `ilike '%pat%'`. -/
def ilike (hay pat : String) : Bool :=
  ((hay.toLower).splitOn (pat.toLower)).length > 1

/-- JS `s.charAt(0).toUpperCase() + s.slice(1)`. -/
def capitalize (s : String) : String :=
  match s.data with
  | [] => ""
  | c :: cs => String.mk (c.toUpper :: cs)

/-- A row of the `ratings` table. -/
structure RatingRow where
  userId : String
  leaderId : String
  rating : ℚ
  createdAt : Int
  updatedAt : Int
  socialBehaviour : Option String
deriving Repr, DecidableEq

/-- A row of the `comments` table. -/
structure CommentRow where
  userId : String
  leaderId : String
  comment : String
  createdAt : Int
  updatedAt : Int
deriving Repr, DecidableEq

/-- A row of the `leaders` table (snake_case columns written camelCase). -/
structure LeaderRow where
  id : String
  name : String
  partyName : String
  gender : String
  age : Int
  photoUrl : String
  constituency : String
  nativeAddress : String
  electionType : String
  locationState : Option String
  locationDistrict : Option String
  rating : ℚ
  reviewCount : Nat
  previousElections : String
  manifestoUrl : Option String
  twitterUrl : Option String
  addedByUserId : Option String
  createdAt : Int
  status : String
  adminComment : Option String
deriving Repr, DecidableEq

/-- The editable leader fields passed to `addLeader`/`updateLeader`
(the TS type `Omit<Leader, 'id' | 'rating' | ...>`). -/
structure LeaderData where
  name : String
  partyName : String
  gender : String
  age : Int
  photoUrl : String
  constituency : String
  nativeAddress : String
  electionType : String
  locationState : Option String
  locationDistrict : Option String
  previousElections : String
  manifestoUrl : Option String
  twitterUrl : Option String
deriving Repr, DecidableEq

/-- A row of the `users` table. -/
structure UserRow where
  id : String
  email : String
  password : Option String
  name : Option String
  createdAt : Int
  isBlocked : Bool
deriving Repr, DecidableEq

/-- A row of the `admin_messages` table. -/
structure AdminMessageRow where
  id : String
  userId : String
  message : String
  isRead : Bool
  createdAt : Int
deriving Repr, DecidableEq

/-- A row of the `support_tickets` table. -/
structure TicketRow where
  id : String
  user_id : Option String
  user_name : String
  user_email : String
  subject : String
  message : String
  status : String
  created_at : Int
  updated_at : Int
  resolved_at : Option Int
  admin_notes : Option String
deriving Repr, DecidableEq

/-- The backing store: one list of rows per table.  `settings` and
`siteSettings` are the two key/value settings tables (`settings` values are
nullable; `site_settings` values are written with `String(value)`). -/
structure Db where
  users : List UserRow
  leaders : List LeaderRow
  ratings : List RatingRow
  comments : List CommentRow
  tickets : List TicketRow
  adminMessages : List AdminMessageRow
  settings : List (String × Option String)
  siteSettings : List (String × String)
deriving Repr, DecidableEq

/-- `getLeaderById`: `select * from leaders where id = ? single()`;
`single()` errors on zero rows, which the function turns into `null`. -/
def getLeaderById (db : Db) (id : String) : Option LeaderRow :=
  db.leaders.find? (fun l => l.id == id)

/-- The `ratings` upsert of `submitRatingAndComment`: conflict on the
`(userId, leaderId)` key replaces the row, keeping the old `createdAt`
(the source passes `createdAt: undefined` for an existing rating). -/
def upsertRating (rs : List RatingRow) (row : RatingRow) : List RatingRow :=
  if rs.any (fun r => r.userId == row.userId && r.leaderId == row.leaderId) then
    rs.map (fun r =>
      if r.userId == row.userId && r.leaderId == row.leaderId then
        { row with createdAt := r.createdAt }
      else r)
  else rs ++ [row]

/-- The `comments` upsert of `submitRatingAndComment`. -/
def upsertComment (cs : List CommentRow) (row : CommentRow) : List CommentRow :=
  if cs.any (fun c => c.userId == row.userId && c.leaderId == row.leaderId) then
    cs.map (fun c =>
      if c.userId == row.userId && c.leaderId == row.leaderId then row else c)
  else cs ++ [row]

/-- The "Update leader's aggregate rating" block of `submitRatingAndComment`:
when the leader has stored ratings, write their two-decimal average and their
count to the leader row. -/
def updateLeaderAggregate (db : Db) (leaderId : String) : Db :=
  let allRatings := db.ratings.filter (fun r => r.leaderId == leaderId)
  if 0 < allRatings.length then
    let totalRating : ℚ := (allRatings.map (fun r => r.rating)).sum
    let averageRating := totalRating / allRatings.length
    let updateRow := fun (l : LeaderRow) =>
      if l.id == leaderId then
        { l with rating := round2 averageRating, reviewCount := allRatings.length }
      else l
    { db with leaders := db.leaders.map updateRow }
  else db

/-- The "Handle comment" block of `submitRatingAndComment`: upsert the comment
when it is non-null and non-blank. -/
def commentStep (db : Db) (leaderId userId : String) (comment : Option String)
    (now : Int) : Db :=
  match comment with
  | some c =>
    if 0 < c.trim.length then
      let commentRow : CommentRow :=
        { userId := userId, leaderId := leaderId, comment := c,
          createdAt := now, updatedAt := now }
      { db with comments := upsertComment db.comments commentRow }
    else db
  | none => db

/-- `submitRatingAndComment` (success path): upsert the rating, upsert the
comment when non-blank, then recompute the leader's aggregate `rating` and
`review_count` from all stored ratings of that leader, and re-fetch the
leader. -/
def submitRatingAndComment (db : Db) (leaderId userId : String) (newRating : ℚ)
    (comment : Option String) (socialBehaviour : Option String) (now : Int) :
    Db × Option LeaderRow :=
  let newRow : RatingRow :=
    { userId := userId, leaderId := leaderId, rating := newRating,
      createdAt := now, updatedAt := now, socialBehaviour := socialBehaviour }
  let db1 : Db := { db with ratings := upsertRating db.ratings newRow }
  let db2 : Db := commentStep db1 leaderId userId comment now
  let db3 : Db := updateLeaderAggregate db2 leaderId
  (db3, getLeaderById db3 leaderId)

/-- `deleteRating`: delete the (user, leader) rating and comment, then
recompute the leader's aggregate `rating` and `review_count` (0 and 0 when no
ratings remain). -/
def deleteRating (db : Db) (userId leaderId : String) : Db :=
  let ratings := db.ratings.filter (fun r =>
    !(r.userId == userId && r.leaderId == leaderId))
  let comments := db.comments.filter (fun c =>
    !(c.userId == userId && c.leaderId == leaderId))
  let remaining := ratings.filter (fun r => r.leaderId == leaderId)
  let newReviewCount := remaining.length
  let newAverageRating : ℚ :=
    if 0 < newReviewCount then
      ((remaining.map (fun r => r.rating)).sum) / newReviewCount
    else 0
  let updateRow := fun (l : LeaderRow) =>
    if l.id == leaderId then
      { l with rating := round2 newAverageRating, reviewCount := newReviewCount }
    else l
  { db with
    ratings := ratings, comments := comments,
    leaders := db.leaders.map updateRow }

/-- The column writes of `updateLeader`'s `updateData` object. -/
def applyLeaderUpdate (l : LeaderRow) (ld : LeaderData) (newStatus : String)
    (newAdminComment : Option String) : LeaderRow :=
  { l with
    name := ld.name, partyName := ld.partyName, gender := ld.gender,
    age := ld.age, photoUrl := ld.photoUrl, constituency := ld.constituency,
    nativeAddress := ld.nativeAddress, electionType := ld.electionType,
    locationState := ld.locationState, locationDistrict := ld.locationDistrict,
    previousElections := ld.previousElections, manifestoUrl := ld.manifestoUrl,
    twitterUrl := ld.twitterUrl, status := newStatus,
    adminComment := newAdminComment }

/-- `updateLeader` (success path for the store writes): fetch the leader,
authorize (original submitter or admin), set status/admin-comment per the
caller's role, write the update, and re-fetch. -/
def updateLeader (db : Db) (leaderId : String) (ld : LeaderData)
    (userId : Option String) (isAdmin : Bool) :
    Except String (Db × Option LeaderRow) :=
  match getLeaderById db leaderId with
  | none => .error "Leader not found."
  | some leaderToUpdate =>
    if !isAdmin && leaderToUpdate.addedByUserId != userId then
      .error "You are not authorized to edit this leader."
    else
      let newStatus := if isAdmin then leaderToUpdate.status else "pending"
      let newAdminComment :=
        if isAdmin then leaderToUpdate.adminComment
        else some "User updated details. Pending re-approval."
      let updateRow := fun (l : LeaderRow) =>
        if l.id == leaderId then applyLeaderUpdate l ld newStatus newAdminComment
        else l
      let db2 := { db with leaders := db.leaders.map updateRow }
      .ok (db2, getLeaderById db2 leaderId)

/-- `getLeaders`: approved leaders only; on a store error, log and return
the empty list (never throws). -/
def getLeaders (db : Db) (err : Bool) : Except String (List LeaderRow) :=
  if err then .ok []
  else .ok (db.leaders.filter (fun l => l.status == "approved"))

/-- `addLeader`: insert a new pending leader; on a store error, throw
`Failed to add leader`.  The generated id is `Date.getTime().toString()`. -/
def addLeader (db : Db) (ld : LeaderData) (userId : Option String) (now : Int)
    (err : Bool) : Except String Db :=
  let newLeader : LeaderRow :=
    { id := toString now, name := ld.name, partyName := ld.partyName,
      gender := ld.gender, age := ld.age, photoUrl := ld.photoUrl,
      constituency := ld.constituency, nativeAddress := ld.nativeAddress,
      electionType := ld.electionType, locationState := ld.locationState,
      locationDistrict := ld.locationDistrict, rating := 0, reviewCount := 0,
      previousElections := ld.previousElections, manifestoUrl := ld.manifestoUrl,
      twitterUrl := ld.twitterUrl, addedByUserId := userId, createdAt := now,
      status := "pending", adminComment := none }
  if err then .error "Failed to add leader"
  else .ok { db with leaders := db.leaders ++ [newLeader] }

/-- The `SiteSettings` record of `settings.ts` (string values; null modeled
as `none`). -/
structure SiteSettings where
  maintenance_active : String
  maintenance_start : Option String
  maintenance_end : Option String
  maintenance_message : Option String
  contact_email : Option String
  contact_phone : Option String
  contact_twitter : Option String
  contact_linkedin : Option String
  contact_youtube : Option String
  contact_facebook : Option String
deriving Repr, DecidableEq

/-- The hardcoded `defaultSettings` object of `settings.ts`. -/
def defaultSettings : SiteSettings :=
  { maintenance_active := "false"
    maintenance_start := none
    maintenance_end := none
    maintenance_message :=
      some "The site is currently down for maintenance. We will be back shortly."
    contact_email := some "support@politirate.com"
    contact_phone := none
    contact_twitter := none
    contact_linkedin := none
    contact_youtube := none
    contact_facebook := none }

/-- The `settings[row.key] = row.value` accumulation loop: the last row with
a given key wins. -/
def kvLast (rows : List (String × String)) (k : String) : Option String :=
  rows.foldl (fun acc r => if r.1 == k then some r.2 else acc) none

/-- One field of the `{ ...defaultSettings, ...settings }` merge. -/
def mergeField (rows : List (String × String)) (k : String)
    (dflt : Option String) : Option String :=
  match kvLast rows k with
  | some v => some v
  | none => dflt

/-- `getSiteSettings`: read `site_settings` key/value rows and merge them over
`defaultSettings`; on a store error, log and return `defaultSettings`
(never throws). -/
def getSiteSettings (db : Db) (err : Bool) : Except String SiteSettings :=
  if err then .ok defaultSettings
  else
    let rows := db.siteSettings
    .ok
      { maintenance_active :=
          (kvLast rows "maintenance_active").getD defaultSettings.maintenance_active
        maintenance_start :=
          mergeField rows "maintenance_start" defaultSettings.maintenance_start
        maintenance_end :=
          mergeField rows "maintenance_end" defaultSettings.maintenance_end
        maintenance_message :=
          mergeField rows "maintenance_message" defaultSettings.maintenance_message
        contact_email :=
          mergeField rows "contact_email" defaultSettings.contact_email
        contact_phone :=
          mergeField rows "contact_phone" defaultSettings.contact_phone
        contact_twitter :=
          mergeField rows "contact_twitter" defaultSettings.contact_twitter
        contact_linkedin :=
          mergeField rows "contact_linkedin" defaultSettings.contact_linkedin
        contact_youtube :=
          mergeField rows "contact_youtube" defaultSettings.contact_youtube
        contact_facebook :=
          mergeField rows "contact_facebook" defaultSettings.contact_facebook }

/-- The `settings` table upsert (`onConflict: 'key'`). -/
def upsertKV (rows : List (String × Option String)) (k : String)
    (v : Option String) : List (String × Option String) :=
  if rows.any (fun r => r.1 == k) then
    rows.map (fun r => if r.1 == k then (k, v) else r)
  else rows ++ [(k, v)]

/-- The per-entry upsert loop of `updateSettings`; `errs k = true` means the
backing store reports an error for the upsert of key `k`, which makes the
function throw `Failed to update setting: <key>`. -/
def updateSettingsLoop (rows : List (String × Option String))
    (entries : List (String × Option String)) (errs : String → Bool) :
    Except String (List (String × Option String)) :=
  match entries with
  | [] => .ok rows
  | (k, v) :: rest =>
    if errs k then .error ("Failed to update setting: " ++ k)
    else updateSettingsLoop (upsertKV rows k v) rest errs

/-- `updateSettings`: upsert each entry of the given partial settings object
into the `settings` table, throwing at the first failed upsert. -/
def updateSettings (db : Db) (entries : List (String × Option String))
    (errs : String → Bool) : Except String Db :=
  match updateSettingsLoop db.settings entries errs with
  | .error e => .error e
  | .ok rows => .ok { db with settings := rows }

/-- The maintenance fields of the settings object consumed by
`isMaintenanceActive`, with the ISO date strings already parsed to epoch
milliseconds (`new Date(string)`), and null/empty modeled as `none`. -/
structure MaintSettings where
  maintenance_active : String
  maintenance_start : Option Int
  maintenance_end : Option Int
deriving Repr, DecidableEq

/-- `isMaintenanceActive`: false unless `maintenance_active` is the string
`true`; false when `now` is before a non-null start or after a non-null end;
true otherwise. -/
def isMaintenanceActive (s : MaintSettings) (now : Int) : Bool :=
  if s.maintenance_active != "true" then false
  else
    let beforeStart := match s.maintenance_start with
      | some startTime => decide (now < startTime)
      | none => false
    let afterEnd := match s.maintenance_end with
      | some endTime => decide (endTime < now)
      | none => false
    if beforeStart then false
    else if afterEnd then false
    else true

/-- The input to `addUser` (`Omit<User, 'id' | 'createdAt'>`, restricted to
the fields the insert uses). -/
structure NewUserInput where
  email : String
  password : Option String
  name : Option String
deriving Repr, DecidableEq

/-- `delete user.password` on a fetched row. -/
def erasePassword (u : UserRow) : UserRow := { u with password := none }

/-- An element of `getUsers`' result: the user row (password removed) plus
the `ratings(count)`, `leaders(count)` and `admin_messages(count)` join
counts the query attaches. -/
structure UserOut where
  user : UserRow
  ratingCount : Nat
  leaderAddedCount : Nat
  messageCount : Nat
deriving Repr, DecidableEq

/-- The `or(name.ilike..,email.ilike..,id.ilike..)` search filter of
`getUsers`. -/
def matchesSearch (st : String) (u : UserRow) : Bool :=
  ilike (u.name.getD "") st || ilike u.email st || ilike u.id st

/-- `getUsers`: all users (optionally filtered by the search term), each with
join counts and with the password field deleted; on a store error, log and
return the empty list (never throws). -/
def getUsers (db : Db) (searchTerm : Option String) (err : Bool) :
    Except String (List UserOut) :=
  if err then .ok []
  else
    let base := match searchTerm with
      | some st => if st.trim != "" then db.users.filter (matchesSearch st.trim)
        else db.users
      | none => db.users
    .ok (base.map (fun u =>
      { user := erasePassword u
        ratingCount := (db.ratings.filter (fun r => r.userId == u.id)).length
        leaderAddedCount :=
          (db.leaders.filter (fun l => l.addedByUserId == some u.id)).length
        messageCount :=
          (db.adminMessages.filter (fun m => m.userId == u.id)).length }))

/-- `findUserByEmail`: the stored row, password included; on a store error
(including no match) return `undefined` (never throws). -/
def findUserByEmail (db : Db) (email : String) (err : Bool) :
    Except String (Option UserRow) :=
  if err then .ok none
  else .ok (db.users.find? (fun u => u.email == email.toLower))

/-- `findUserById`: the stored row with the password deleted; on a store
error return `undefined` (never throws). -/
def findUserById (db : Db) (id : String) (err : Bool) :
    Except String (Option UserRow) :=
  if err then .ok none
  else .ok ((db.users.find? (fun u => u.id == id)).map erasePassword)

/-- `addUser`: derive the display name, insert the row (password stored
as-is), and return the created row with the password deleted; on a store
error, log and return `null` — it does not throw. -/
def addUser (db : Db) (u : NewUserInput) (err : Bool) (now : Int) :
    Except String (Option UserRow × Db) :=
  let rawName := match u.name with
    | some n => if n != "" then n else (u.email.splitOn "@").headD ""
    | none => (u.email.splitOn "@").headD ""
  let formattedName := capitalize rawName
  let newUser : UserRow :=
    { id := toString now, email := u.email.toLower,
      password := some (u.password.getD ""), name := some formattedName,
      createdAt := now, isBlocked := false }
  if err then .ok (none, db)
  else .ok (some (erasePassword newUser), { db with users := db.users ++ [newUser] })

/-- The filter object of `getSupportTickets`. -/
structure TicketFilters where
  status : Option String
  dateFrom : Option Int
  dateTo : Option Int
  searchQuery : Option String
deriving Repr, DecidableEq

/-- `30 * 24 * 60 * 60 * 1000` milliseconds. -/
def thirtyDaysMs : Int := 30 * 24 * 60 * 60 * 1000

/-- `status in ('in-progress', 'resolved', 'closed')`. -/
def inactiveTicket (s : String) : Bool :=
  s == "in-progress" || s == "resolved" || s == "closed"

/-- The automated-deletion step of `getSupportTickets`: permanently delete
tickets that are in-progress/resolved/closed and whose `updated_at` is
strictly older than 30 days before now. -/
def purgeOldTickets (ts : List TicketRow) (now : Int) : List TicketRow :=
  let thirtyDaysAgo := now - thirtyDaysMs
  ts.filter (fun t => !(inactiveTicket t.status && decide (t.updated_at < thirtyDaysAgo)))

/-- `getSupportTickets`: first run the automated deletion against the store,
then select tickets matching the filters (remote ordering abstracted). -/
def getSupportTickets (db : Db) (f : TicketFilters) (now : Int) :
    Db × List TicketRow :=
  let db2 : Db := { db with tickets := purgeOldTickets db.tickets now }
  let q1 := match f.status with
    | some s => db2.tickets.filter (fun t => t.status == s)
    | none => db2.tickets
  let q2 := match f.dateFrom, f.dateTo with
    | some a, some b =>
      q1.filter (fun t => decide (a ≤ t.created_at) && decide (t.created_at ≤ b))
    | _, _ => q1
  let q3 := match f.searchQuery with
    | some sq =>
      if sq != "" then
        q2.filter (fun t => ilike t.user_name sq || ilike t.user_email sq ||
          ilike t.subject sq)
      else q2
    | none => q2
  (db2, q3)

/-- A row of the `poll_options` table. -/
structure PollOptionRow where
  id : String
  option_text : String
  option_order : Int
deriving Repr, DecidableEq

/-- A row of the `poll_answers` table. -/
structure PollAnswerRow where
  id : String
  response_id : String
  question_id : String
  selected_option_id : String
deriving Repr, DecidableEq

/-- A row of the `poll_questions` table, with its nested options and answers
as fetched by `getPollResults`. -/
structure PollQuestionRow where
  id : String
  poll_id : String
  question_text : String
  question_type : String
  question_order : Int
  poll_options : List PollOptionRow
  poll_answers : List PollAnswerRow
deriving Repr, DecidableEq

/-- The fetched poll with its nested questions. -/
structure PollRow where
  id : String
  poll_questions : List PollQuestionRow
deriving Repr, DecidableEq

/-- One element of a `PollResult`'s `options` array. -/
structure OptionResult where
  optionId : String
  optionText : String
  count : Nat
  percentage : Int
deriving Repr, DecidableEq

/-- The `PollResult` record. -/
structure PollResult where
  pollId : String
  questionId : String
  questionText : String
  questionType : String
  options : List OptionResult
  totalResponses : Nat
deriving Repr, DecidableEq

/-- The `optionCounts` tally: how many answers of the question selected the
given option id. -/
def optionCount (answers : List PollAnswerRow) (oid : String) : Nat :=
  (answers.filter (fun a => a.selected_option_id == oid)).length

/-- `Math.round((count / total) * 100)` with 0 when the total is 0;
`Math.round` rounds half towards positive infinity, as does `round` on `ℚ`. -/
def pct (count total : Nat) : Int :=
  if 0 < total then round ((count * 100 : ℚ) / total) else 0

/-- The result `getPollResults` builds for one question. -/
def questionResult (pollId : String) (q : PollQuestionRow) : PollResult :=
  let total := q.poll_answers.length
  { pollId := pollId
    questionId := q.id
    questionText := q.question_text
    questionType := q.question_type
    options := q.poll_options.map (fun o =>
      { optionId := o.id
        optionText := o.option_text
        count := optionCount q.poll_answers o.id
        percentage := pct (optionCount q.poll_answers o.id) total })
    totalResponses := total }

/-- `getPollResults`: empty when the poll is absent, otherwise one result per
fetched question. -/
def getPollResults (pollId : String) (poll : Option PollRow) : List PollResult :=
  match poll with
  | none => []
  | some p => p.poll_questions.map (questionResult pollId)

/-- The rating values currently stored for a leader — the claim's
"all rating values currently stored for that leader". -/
def storedRatings (db : Db) (leaderId : String) : List ℚ :=
  (db.ratings.filter (fun r => r.leaderId == leaderId)).map (fun r => r.rating)

/-- The per-user-per-leader key of a rating row. -/
def ratingKey (r : RatingRow) : String × String := (r.userId, r.leaderId)

/-- Test fixture: an editable-fields object. -/
def ldInput : LeaderData :=
  { name := "New Name", partyName := "P", gender := "male", age := 50,
    photoUrl := "u", constituency := "c", nativeAddress := "n",
    electionType := "national", locationState := none, locationDistrict := none,
    previousElections := "[]", manifestoUrl := none, twitterUrl := none }

/-- Test fixture: an approved leader submitted by user U1. -/
def leaderA : LeaderRow :=
  { id := "L1", name := "Old", partyName := "P", gender := "male", age := 50,
    photoUrl := "u", constituency := "c", nativeAddress := "n",
    electionType := "national", locationState := none, locationDistrict := none,
    rating := 5, reviewCount := 1, previousElections := "[]",
    manifestoUrl := none, twitterUrl := none, addedByUserId := some "U1",
    createdAt := 0, status := "approved", adminComment := some "Approved by admin." }

/-- Test fixture: a user row holding a password. -/
def userA : UserRow :=
  { id := "U1", email := "alice@example.com", password := some "pw1",
    name := some "Alice", createdAt := 0, isBlocked := false }

/-- Test fixture: the same user row with a different password. -/
def userB : UserRow := { userA with password := some "pw2" }

/-- Test fixture: a rating of leader L1 by user U2. -/
def ratingU2 : RatingRow :=
  { userId := "U2", leaderId := "L1", rating := 5, createdAt := 1,
    updatedAt := 1, socialBehaviour := none }

/-- Test fixture: a resolved ticket last updated at epoch 0. -/
def ticketStale : TicketRow :=
  { id := "T1", user_id := none, user_name := "Bob", user_email := "b@x.com",
    subject := "s", message := "m", status := "resolved", created_at := 0,
    updated_at := 0, resolved_at := some 0, admin_notes := none }

/-- Test fixture: an open ticket last updated at epoch 0. -/
def ticketOpen : TicketRow := { ticketStale with id := "T2", status := "open" }

/-- Test fixture: a small populated store. -/
def db0 : Db :=
  { users := [userA], leaders := [leaderA], ratings := [ratingU2], comments := [],
    tickets := [ticketStale, ticketOpen], adminMessages := [], settings := [],
    siteSettings := [] }

/-- Test fixture: an empty store. -/
def emptyDb : Db :=
  { users := [], leaders := [], ratings := [], comments := [], tickets := [],
    adminMessages := [], settings := [], siteSettings := [] }

/-- Test fixture: poll option O1. -/
def optA : PollOptionRow := { id := "O1", option_text := "Yes", option_order := 1 }

/-- Test fixture: poll option O2. -/
def optB : PollOptionRow := { id := "O2", option_text := "No", option_order := 2 }

/-- Test fixture: an answer selecting O1. -/
def ansA1 : PollAnswerRow :=
  { id := "A1", response_id := "R1", question_id := "Q1", selected_option_id := "O1" }

/-- Test fixture: a second answer selecting O1. -/
def ansA2 : PollAnswerRow := { ansA1 with id := "A2", response_id := "R2" }

/-- Test fixture: an answer selecting O2. -/
def ansA3 : PollAnswerRow :=
  { ansA1 with id := "A3", response_id := "R3", selected_option_id := "O2" }

/-- Test fixture: a single-choice question with three answers. -/
def sampleQ : PollQuestionRow :=
  { id := "Q1", poll_id := "P1", question_text := "q", question_type := "single-choice",
    question_order := 1, poll_options := [optA, optB],
    poll_answers := [ansA1, ansA2, ansA3] }

/-- Test fixture: the poll owning `sampleQ`. -/
def samplePoll : PollRow := { id := "P1", poll_questions := [sampleQ] }

/-- Claim C3: `isMaintenanceActive()` returns true iff the
`maintenance_active` setting is the string `true`, the current time is not
earlier than a non-null `maintenance_start`, and not later than a non-null
`maintenance_end`; in every other case it returns false. -/
theorem C3_isMaintenanceActive_iff (s : MaintSettings) (now : Int) :
    isMaintenanceActive s now = true ↔
      (s.maintenance_active = "true" ∧
        (∀ startTime, s.maintenance_start = some startTime → startTime ≤ now) ∧
        (∀ endTime, s.maintenance_end = some endTime → now ≤ endTime)) := by
  rcases s with ⟨a, st, en⟩
  simp only [isMaintenanceActive]
  by_cases ha : a = "true"
  · subst ha
    rcases st with _ | st <;> rcases en with _ | en
    · simp
    · simp only [bne_self_eq_false]
      split_ifs with h <;> simp_all
    · simp only [bne_self_eq_false]
      split_ifs with h <;> simp_all
    · simp only [bne_self_eq_false]
      split_ifs with h1 h2 <;> simp_all
  · simp [ha, bne_iff_ne]

/-- Witness for C3 at a concrete settings row and time. -/
theorem C3_isMaintenanceActive_iff_witness :
    isMaintenanceActive
      ({ maintenance_active := "true", maintenance_start := some 0,
         maintenance_end := some 10 } : MaintSettings) 5 = true :=
  (C3_isMaintenanceActive_iff _ 5).mpr
    ⟨rfl, by intro x hx; cases hx; omega, by intro x hx; cases hx; omega⟩

/-- Claim C4: `updateLeader` throws the authorization error iff the leader
exists, the caller is not an admin, and the leader's `addedByUserId` differs
from the caller; the submitter or an admin proceeds without an authorization
error, and a missing leader raises `Leader not found.` instead. -/
theorem C4_updateLeader_auth (db : Db) (leaderId : String) (ld : LeaderData)
    (userId : Option String) (isAdmin : Bool) :
    (updateLeader db leaderId ld userId isAdmin =
        Except.error "You are not authorized to edit this leader." ↔
      (∃ l, getLeaderById db leaderId = some l ∧ isAdmin = false ∧
        l.addedByUserId ≠ userId)) ∧
    (getLeaderById db leaderId = none →
      updateLeader db leaderId ld userId isAdmin =
        Except.error "Leader not found.") ∧
    (∀ l, getLeaderById db leaderId = some l →
      (isAdmin = true ∨ l.addedByUserId = userId) →
      ∃ out, updateLeader db leaderId ld userId isAdmin = Except.ok out) := by
  rcases hfind : getLeaderById db leaderId with _ | l0
  · refine ⟨?_, fun _ => ?_, ?_⟩
    · simp [updateLeader, hfind]
    · simp [updateLeader, hfind]
    · intro l hl
      exact absurd hl (by simp)
  · refine ⟨?_, fun h => absurd h (by simp), ?_⟩
    · simp only [updateLeader, hfind]
      by_cases hA : isAdmin
      · simp [hA]
      · by_cases hne : l0.addedByUserId = userId
        · simp [hA, hne]
        · simp [hA, hne, bne_iff_ne]
    · intro l hl hOr
      have hl0 : l0 = l := by injection hl
      subst hl0
      simp only [updateLeader, hfind]
      rcases hOr with hA | hne
      · subst hA
        simp
      · simp [hne]

/-- Witness for C4: a non-admin stranger is rejected on the sample store. -/
theorem C4_updateLeader_auth_witness :
    updateLeader db0 "L1" ldInput (some "U9") false =
      Except.error "You are not authorized to edit this leader." :=
  (C4_updateLeader_auth db0 "L1" ldInput (some "U9") false).1.mpr
    ⟨leaderA, by decide, rfl, by decide⟩

/-- Claim C6: on a backing-store error the cited reads do not throw:
`getLeaders` returns the empty list, `getSiteSettings` the hardcoded default
settings object, and `findUserById` undefined. -/
theorem C6_read_error_defaults (db : Db) (id : String) :
    getLeaders db true = Except.ok [] ∧
    getSiteSettings db true = Except.ok defaultSettings ∧
    findUserById db id true = Except.ok none :=
  ⟨rfl, rfl, rfl⟩

/-- Claim C9: `getSupportTickets` first mutates the store, permanently
deleting exactly the tickets that are in-progress/resolved/closed with
`updated_at` older than 30 days; open tickets and recently-updated tickets
survive, and nothing else changes in the tickets table. -/
theorem C9_support_ticket_purge (db : Db) (f : TicketFilters) (now : Int)
    (t : TicketRow) (ht : t ∈ db.tickets) :
    (t ∈ (getSupportTickets db f now).1.tickets ↔
      ¬((t.status = "in-progress" ∨ t.status = "resolved" ∨ t.status = "closed") ∧
        t.updated_at < now - thirtyDaysMs)) ∧
    (t.status = "open" → t ∈ (getSupportTickets db f now).1.tickets) ∧
    (now - thirtyDaysMs ≤ t.updated_at → t ∈ (getSupportTickets db f now).1.tickets) ∧
    (∀ u ∈ (getSupportTickets db f now).1.tickets, u ∈ db.tickets) := by
  have hmem : ∀ s : TicketRow, s ∈ (getSupportTickets db f now).1.tickets ↔
      s ∈ db.tickets ∧
        ¬((s.status = "in-progress" ∨ s.status = "resolved" ∨ s.status = "closed") ∧
          s.updated_at < now - thirtyDaysMs) := by
    intro s
    show s ∈ purgeOldTickets db.tickets now ↔ _
    simp only [purgeOldTickets, List.mem_filter, inactiveTicket,
      Bool.not_eq_true', Bool.and_eq_false_iff, Bool.or_eq_true, beq_iff_eq,
      decide_eq_true_eq, decide_eq_false_iff_not, Bool.or_eq_false_iff,
      beq_eq_false_iff_ne, ne_eq]
    constructor
    · rintro ⟨h1, h2⟩
      refine ⟨h1, ?_⟩
      rintro ⟨h3, h4⟩
      rcases h2 with h2 | h2
      · tauto
      · exact h2 h4
    · rintro ⟨h1, h2⟩
      refine ⟨h1, ?_⟩
      by_cases hst : s.status = "in-progress" ∨ s.status = "resolved" ∨ s.status = "closed"
      · exact Or.inr (fun h4 => h2 ⟨hst, h4⟩)
      · exact Or.inl (by tauto)
  refine ⟨?_, ?_, ?_, ?_⟩
  · rw [hmem t]
    tauto
  · intro hopen
    rw [hmem t]
    refine ⟨ht, ?_⟩
    rintro ⟨h1 | h1 | h1, _⟩ <;> rw [hopen] at h1 <;> exact absurd h1 (by decide)
  · intro hrecent
    rw [hmem t]
    exact ⟨ht, fun h => absurd h.2 (by omega)⟩
  · intro u hu
    exact ((hmem u).mp hu).1

/-- Witness for C9: with `now` one millisecond past the 30-day cutoff, the
stale resolved ticket is deleted and the open ticket survives. -/
theorem C9_support_ticket_purge_witness :
    ticketOpen ∈
      (getSupportTickets db0 ⟨none, none, none, none⟩ (thirtyDaysMs + 1)).1.tickets ∧
    ticketStale ∉
      (getSupportTickets db0 ⟨none, none, none, none⟩ (thirtyDaysMs + 1)).1.tickets := by
  constructor
  · exact (C9_support_ticket_purge db0 ⟨none, none, none, none⟩ (thirtyDaysMs + 1)
      ticketOpen (by decide)).2.1 (by decide)
  · intro hm
    exact (C9_support_ticket_purge db0 ⟨none, none, none, none⟩ (thirtyDaysMs + 1)
      ticketStale (by decide)).1.mp hm ⟨Or.inr (Or.inl (by decide)), by decide⟩

/-- The upserted rating row is present after `upsertRating` (with some
creation time). -/
lemma upsertRating_self_mem (rs : List RatingRow) (row : RatingRow) :
    ∃ c : Int, ({ row with createdAt := c } : RatingRow) ∈ upsertRating rs row := by
  unfold upsertRating
  by_cases h : rs.any (fun r => r.userId == row.userId && r.leaderId == row.leaderId)
  · rw [if_pos h]
    obtain ⟨r, hr, hcond⟩ := List.any_eq_true.mp h
    refine ⟨r.createdAt, ?_⟩
    have hmap := List.mem_map_of_mem
      (f := fun r' => if r'.userId == row.userId && r'.leaderId == row.leaderId then
        ({ row with createdAt := r'.createdAt } : RatingRow) else r') hr
    simpa [hcond] using hmap
  · rw [if_neg h]
    exact ⟨row.createdAt, by simp⟩

/-- `updateLeaderAggregate` does not change the ratings table. -/
lemma updateLeaderAggregate_ratings (db : Db) (lid : String) :
    (updateLeaderAggregate db lid).ratings = db.ratings := by
  simp only [updateLeaderAggregate]
  split <;> rfl

/-- `commentStep` does not change the ratings table. -/
lemma commentStep_ratings (db : Db) (lid uid : String) (c : Option String)
    (now : Int) : (commentStep db lid uid c now).ratings = db.ratings := by
  simp only [commentStep]
  rcases c with _ | c
  · rfl
  · dsimp only
    split <;> rfl

/-- `storedRatings` depends only on the ratings table. -/
lemma storedRatings_congr {dbA dbB : Db} (h : dbA.ratings = dbB.ratings)
    (lid : String) : storedRatings dbA lid = storedRatings dbB lid := by
  simp [storedRatings, h]

/-- After `updateLeaderAggregate`, every leader row with the given id carries
the two-decimal average and the count of that leader's stored ratings. -/
lemma updateLeaderAggregate_spec (db : Db) (lid : String)
    (hpos : 0 < (db.ratings.filter (fun r => r.leaderId == lid)).length) :
    ∀ l ∈ (updateLeaderAggregate db lid).leaders, l.id = lid →
      l.rating = round2 ((storedRatings db lid).sum /
        ((storedRatings db lid).length : ℚ)) ∧
      l.reviewCount = (storedRatings db lid).length := by
  intro l hl hid
  unfold updateLeaderAggregate at hl
  rw [if_pos hpos] at hl
  simp only [Db.leaders] at hl
  rcases List.mem_map.mp hl with ⟨x, hx, rfl⟩
  by_cases hxid : (x.id == lid) = true
  · rw [if_pos hxid]
    constructor
    · simp [storedRatings, List.length_map]
    · simp [storedRatings, List.length_map]
  · rw [if_neg hxid] at hid ⊢
    exact absurd (by simp [hid]) hxid

/-- `round2 0 = 0`. -/
lemma round2_zero : round2 0 = 0 := by
  norm_num [round2]

/-- After `deleteRating`, every leader row with the given id carries the
recomputed two-decimal average (0 when no ratings remain) and count. -/
lemma deleteRating_leader_spec (db : Db) (uid2 lid2 : String) :
    ∀ l ∈ (deleteRating db uid2 lid2).leaders, l.id = lid2 →
      l.rating = round2
        (if 0 < (storedRatings (deleteRating db uid2 lid2) lid2).length then
          (storedRatings (deleteRating db uid2 lid2) lid2).sum /
            ((storedRatings (deleteRating db uid2 lid2) lid2).length : ℚ)
        else 0) ∧
      l.reviewCount = (storedRatings (deleteRating db uid2 lid2) lid2).length := by
  intro l hl hid
  have hsr : storedRatings (deleteRating db uid2 lid2) lid2 =
      ((db.ratings.filter (fun r => !(r.userId == uid2 && r.leaderId == lid2))).filter
        (fun r => r.leaderId == lid2)).map (fun r => r.rating) := rfl
  rw [hsr, List.length_map]
  simp only [deleteRating] at hl
  rcases List.mem_map.mp hl with ⟨x, hx, rfl⟩
  by_cases hxid : (x.id == lid2) = true
  · rw [if_pos hxid]
    exact ⟨rfl, rfl⟩
  · rw [if_neg hxid] at hid
    exact absurd (by simp [hid]) hxid

/-- Claim C1: after a successful `submitRatingAndComment` and after
`deleteRating`, the leader row with the given id carries the two-decimal
arithmetic mean of all currently stored ratings for that leader (0 when none
remain after a delete) and their count as `review_count`. -/
theorem C1_leader_aggregates (db : Db) (leaderId userId : String)
    (newRating : ℚ) (comment socialBehaviour : Option String) (now : Int)
    (uid2 lid2 : String) :
    (∀ l ∈ (submitRatingAndComment db leaderId userId newRating comment
        socialBehaviour now).1.leaders, l.id = leaderId →
      l.rating = round2 ((storedRatings (submitRatingAndComment db leaderId
          userId newRating comment socialBehaviour now).1 leaderId).sum /
        ((storedRatings (submitRatingAndComment db leaderId userId newRating
          comment socialBehaviour now).1 leaderId).length : ℚ)) ∧
      l.reviewCount = (storedRatings (submitRatingAndComment db leaderId
          userId newRating comment socialBehaviour now).1 leaderId).length) ∧
    (∀ l ∈ (deleteRating db uid2 lid2).leaders, l.id = lid2 →
      (0 < (storedRatings (deleteRating db uid2 lid2) lid2).length →
        l.rating = round2 ((storedRatings (deleteRating db uid2 lid2) lid2).sum /
          ((storedRatings (deleteRating db uid2 lid2) lid2).length : ℚ))) ∧
      ((storedRatings (deleteRating db uid2 lid2) lid2).length = 0 →
        l.rating = 0) ∧
      l.reviewCount = (storedRatings (deleteRating db uid2 lid2) lid2).length) := by
  constructor
  · set row : RatingRow := ⟨userId, leaderId, newRating, now, now, socialBehaviour⟩ with hrowdef
    set dbc : Db := commentStep { db with ratings := upsertRating db.ratings row } leaderId userId comment now with hdbcdef
    intro l hl hid
    obtain ⟨c, hcmem⟩ := upsertRating_self_mem db.ratings row
    have hfst : (submitRatingAndComment db leaderId userId newRating comment
        socialBehaviour now).1 = updateLeaderAggregate dbc leaderId := rfl
    have hrat2 : dbc.ratings = upsertRating db.ratings row :=
      commentStep_ratings _ _ _ _ _
    have hposmem : ({ row with createdAt := c } : RatingRow) ∈
        dbc.ratings.filter (fun r => r.leaderId == leaderId) := by
      rw [hrat2]
      refine List.mem_filter.mpr ⟨hcmem, ?_⟩
      simp [hrowdef]
    have hpos : 0 < (dbc.ratings.filter (fun r => r.leaderId == leaderId)).length :=
      List.length_pos.mpr (List.ne_nil_of_mem hposmem)
    rw [hfst] at hl
    have hspec := updateLeaderAggregate_spec dbc leaderId hpos l hl hid
    have hsr : storedRatings (submitRatingAndComment db leaderId userId
        newRating comment socialBehaviour now).1 leaderId =
        storedRatings dbc leaderId := by
      apply storedRatings_congr
      rw [hfst]
      exact updateLeaderAggregate_ratings dbc leaderId
    rw [hsr]
    exact hspec
  · intro l hl hid
    have h := deleteRating_leader_spec db uid2 lid2 l hl hid
    refine ⟨?_, ?_, h.2⟩
    · intro hlen
      rw [h.1, if_pos hlen]
    · intro hlen
      rw [h.1, if_neg (by omega)]
      exact round2_zero

/-- Witness for C1: on the sample store, a new rating of 4 beside the stored
5 yields the two-decimal average of 9/2 with review count 2, and deleting the
only rating yields rating 0 with review count 0. -/
theorem C1_leader_aggregates_witness :
    ({ leaderA with rating := round2 ((9 : ℚ)/2), reviewCount := 2 } : LeaderRow).rating =
      round2 ((storedRatings (submitRatingAndComment db0 "L1" "U3" 4 none none 5).1 "L1").sum /
        ((storedRatings (submitRatingAndComment db0 "L1" "U3" 4 none none 5).1 "L1").length : ℚ)) ∧
    ({ leaderA with rating := round2 0, reviewCount := 0 } : LeaderRow).reviewCount =
      (storedRatings (deleteRating db0 "U2" "L1") "L1").length ∧
    ((storedRatings (deleteRating db0 "U2" "L1") "L1").length = 0 →
      ({ leaderA with rating := round2 0, reviewCount := 0 } : LeaderRow).rating = 0) := by
  have h := C1_leader_aggregates db0 "L1" "U3" 4 none none 5 "U2" "L1"
  have hsub : (submitRatingAndComment db0 "L1" "U3" 4 none none 5).1.leaders =
      [{ leaderA with rating := round2 ((9 : ℚ)/2), reviewCount := 2 }] := by
    simp [submitRatingAndComment, commentStep, updateLeaderAggregate, upsertRating,
      db0, ratingU2, leaderA, String.reduceEq]
    norm_num
  have hdel : (deleteRating db0 "U2" "L1").leaders =
      [{ leaderA with rating := round2 0, reviewCount := 0 }] := rfl
  have hm1 : ({ leaderA with rating := round2 ((9 : ℚ)/2), reviewCount := 2 } : LeaderRow) ∈
      (submitRatingAndComment db0 "L1" "U3" 4 none none 5).1.leaders := by
    rw [hsub]
    exact List.mem_singleton.mpr rfl
  have hm2 : ({ leaderA with rating := round2 0, reviewCount := 0 } : LeaderRow) ∈
      (deleteRating db0 "U2" "L1").leaders := by
    rw [hdel]
    exact List.mem_singleton.mpr rfl
  exact ⟨(h.1 _ hm1 rfl).1, (h.2 _ hm2 rfl).2.2, (h.2 _ hm2 rfl).2.1⟩

/-- Upserting a rating preserves per-(user, leader) key uniqueness. -/
lemma upsertRating_keys_nodup (rs : List RatingRow) (row : RatingRow)
    (h : (rs.map ratingKey).Nodup) :
    ((upsertRating rs row).map ratingKey).Nodup := by
  unfold upsertRating
  by_cases hany : rs.any (fun r => r.userId == row.userId && r.leaderId == row.leaderId) = true
  · rw [if_pos hany]
    have hkeys : ((rs.map (fun r =>
        if r.userId == row.userId && r.leaderId == row.leaderId then
          ({ row with createdAt := r.createdAt } : RatingRow)
        else r)).map ratingKey) = rs.map ratingKey := by
      rw [List.map_map]
      apply List.map_congr_left
      intro r hr
      by_cases hc : (r.userId == row.userId && r.leaderId == row.leaderId) = true
      · have hu : r.userId = row.userId := by
          have := (Bool.and_eq_true _ _).mp hc
          exact beq_iff_eq.mp this.1
        have hl : r.leaderId = row.leaderId := by
          have := (Bool.and_eq_true _ _).mp hc
          exact beq_iff_eq.mp this.2
        simp [Function.comp, hc, ratingKey, hu, hl]
      · simp [Function.comp, hc]
    rw [hkeys]
    exact h
  · rw [if_neg hany]
    rw [List.map_append]
    rw [List.nodup_append]
    refine ⟨h, by simp, ?_⟩
    intro k hk hk2
    simp only [List.map_cons, List.map_nil, List.mem_singleton] at hk2
    rcases List.mem_map.mp hk with ⟨r, hr, rfl⟩
    have hc : (r.userId == row.userId && r.leaderId == row.leaderId) = true := by
      have h1 : r.userId = row.userId := congrArg Prod.fst hk2
      have h2 : r.leaderId = row.leaderId := congrArg Prod.snd hk2
      simp [h1, h2]
    exact hany (List.any_eq_true.mpr ⟨r, hr, hc⟩)

/-- After an upsert, every row carrying the upserted (user, leader) key holds
the upserted score. -/
lemma upsertRating_pair (rs : List RatingRow) (row : RatingRow) :
    ∀ r ∈ upsertRating rs row, r.userId = row.userId → r.leaderId = row.leaderId →
      r.rating = row.rating := by
  intro r hr hu hl
  unfold upsertRating at hr
  by_cases hany : rs.any (fun x => x.userId == row.userId && x.leaderId == row.leaderId) = true
  · rw [if_pos hany] at hr
    rcases List.mem_map.mp hr with ⟨x, hx, rfl⟩
    by_cases hc : (x.userId == row.userId && x.leaderId == row.leaderId) = true
    · simp [hc]
    · rw [if_neg hc] at hu hl ⊢
      exact absurd (by simp [hu, hl]) hc
  · rw [if_neg hany] at hr
    rcases List.mem_append.mp hr with hr | hr
    · have hc : ¬ ((r.userId == row.userId && r.leaderId == row.leaderId) = true) := by
        intro hc
        exact hany (List.any_eq_true.mpr ⟨r, hr, hc⟩)
      exact absurd (by simp [hu, hl]) hc
    · rw [List.mem_singleton.mp hr]

/-- C7 counterexample: `submitRatingAndComment` performs no 1-5 range check;
submitting a score of 6 stores 6. -/
theorem C7_range_counterexample :
    ¬ (∀ (db : Db) (leaderId userId : String) (newRating : ℚ)
        (comment socialBehaviour : Option String) (now : Int),
        ∀ r ∈ (submitRatingAndComment db leaderId userId newRating comment
          socialBehaviour now).1.ratings, 1 ≤ r.rating ∧ r.rating ≤ 5) := by
  intro h
  have hlist : (submitRatingAndComment emptyDb "L" "U" 6 none none 0).1.ratings =
      [⟨"U", "L", 6, 0, 0, none⟩] := rfl
  have hr : (⟨"U", "L", 6, 0, 0, none⟩ : RatingRow) ∈
      (submitRatingAndComment emptyDb "L" "U" 6 none none 0).1.ratings := by
    rw [hlist]
    exact List.mem_singleton.mpr rfl
  have h6 : ¬ ((6 : ℚ) ≤ 5) := by norm_num
  exact h6 (h emptyDb "L" "U" 6 none none 0 _ hr).2

/-- Claim C7 (amended): `submitRatingAndComment` stores the submitted score
unvalidated — the stored row for the submitting (user, leader) pair carries
exactly `newRating` — and per-(user, leader) uniqueness is preserved:
resubmitting replaces the previous score rather than adding a row. -/
theorem C7_rating_upsert (db : Db) (leaderId userId : String) (newRating : ℚ)
    (comment socialBehaviour : Option String) (now : Int)
    (hnodup : (db.ratings.map ratingKey).Nodup) :
    ((submitRatingAndComment db leaderId userId newRating comment socialBehaviour
      now).1.ratings.map ratingKey).Nodup ∧
    (∀ r ∈ (submitRatingAndComment db leaderId userId newRating comment
        socialBehaviour now).1.ratings,
      r.userId = userId → r.leaderId = leaderId → r.rating = newRating) := by
  have hfst : (submitRatingAndComment db leaderId userId newRating comment
      socialBehaviour now).1 =
      updateLeaderAggregate (commentStep { db with ratings := upsertRating db.ratings ⟨userId, leaderId, newRating, now, now, socialBehaviour⟩ } leaderId userId comment now) leaderId := rfl
  have hrat : (submitRatingAndComment db leaderId userId newRating comment
      socialBehaviour now).1.ratings =
      upsertRating db.ratings ⟨userId, leaderId, newRating, now, now, socialBehaviour⟩ := by
    rw [hfst, updateLeaderAggregate_ratings, commentStep_ratings]
  rw [hrat]
  exact ⟨upsertRating_keys_nodup db.ratings _ hnodup,
    upsertRating_pair db.ratings _⟩

/-- Witness for C7 (amended): user U2 resubmits a score of 3 for leader L1 on
the sample store; the single stored row for the pair is replaced and carries 3. -/
theorem C7_rating_upsert_witness :
    ((submitRatingAndComment db0 "L1" "U2" 3 none none 7).1.ratings.map
      ratingKey).Nodup ∧
    (⟨"U2", "L1", 3, 1, 7, none⟩ : RatingRow).rating = 3 := by
  have h := C7_rating_upsert db0 "L1" "U2" 3 none none 7 (by decide)
  have hlist : (submitRatingAndComment db0 "L1" "U2" 3 none none 7).1.ratings =
      [⟨"U2", "L1", 3, 1, 7, none⟩] := rfl
  have hm : (⟨"U2", "L1", 3, 1, 7, none⟩ : RatingRow) ∈
      (submitRatingAndComment db0 "L1" "U2" 3 none none 7).1.ratings := by
    rw [hlist]
    exact List.mem_singleton.mpr rfl
  exact ⟨h.1, h.2 _ hm rfl rfl⟩

/-- With unique primary keys, `find?` by id returns exactly the stored row. -/
lemma find_leader_of_nodup (ls : List LeaderRow)
    (h : (ls.map (fun l => l.id)).Nodup) (l : LeaderRow) (hl : l ∈ ls)
    (lid : String) (hid : l.id = lid) :
    ls.find? (fun x => x.id == lid) = some l := by
  induction ls with
  | nil => cases hl
  | cons x xs ih =>
    rw [List.map_cons, List.nodup_cons] at h
    rcases List.mem_cons.mp hl with rfl | hmem
    · exact List.find?_cons_of_pos _ (by simp [hid])
    · have hxid : ¬ x.id = lid := by
        intro heq
        apply h.1
        have hmm : l.id ∈ xs.map (fun y => y.id) := List.mem_map_of_mem _ hmem
        rw [hid] at hmm
        rw [heq]
        exact hmm
      rw [List.find?_cons_of_neg _ (by simp [hxid])]
      exact ih h.2 hmem

/-- Claim C8: when `updateLeader` succeeds for a non-admin caller, the leader
row is set to status `pending` with admin comment
`User updated details. Pending re-approval.` regardless of the previous
status; for an admin caller the update leaves status and admin comment
unchanged. -/
theorem C8_updateLeader_status (db : Db) (leaderId : String) (ld : LeaderData)
    (userId : Option String) (isAdmin : Bool) (db2 : Db) (ret : Option LeaderRow)
    (hnodup : (db.leaders.map (fun l => l.id)).Nodup)
    (hok : updateLeader db leaderId ld userId isAdmin = Except.ok (db2, ret)) :
    ∀ l ∈ db.leaders, l.id = leaderId →
      (applyLeaderUpdate l ld (if isAdmin then l.status else "pending")
        (if isAdmin then l.adminComment
         else some "User updated details. Pending re-approval.")) ∈ db2.leaders ∧
      ∀ l2 ∈ db2.leaders, l2.id = leaderId →
        l2.status = (if isAdmin then l.status else "pending") ∧
        l2.adminComment = (if isAdmin then l.adminComment
          else some "User updated details. Pending re-approval.") := by
  intro l hl hid
  have hfind : getLeaderById db leaderId = some l :=
    find_leader_of_nodup db.leaders hnodup l hl leaderId hid
  simp only [updateLeader, hfind] at hok
  by_cases hauth : (!isAdmin && l.addedByUserId != userId) = true
  · rw [if_pos hauth] at hok
    exact absurd hok (by simp)
  · rw [if_neg hauth] at hok
    simp only [Except.ok.injEq, Prod.mk.injEq] at hok
    have hdb2 : db2 = { db with leaders := db.leaders.map (fun x =>
        if x.id == leaderId then
          applyLeaderUpdate x ld (if isAdmin then l.status else "pending")
            (if isAdmin then l.adminComment
             else some "User updated details. Pending re-approval.")
        else x) } := hok.1.symm
    constructor
    · rw [hdb2]
      have hmap := List.mem_map_of_mem (f := fun x =>
        if x.id == leaderId then
          applyLeaderUpdate x ld (if isAdmin then l.status else "pending")
            (if isAdmin then l.adminComment
             else some "User updated details. Pending re-approval.")
        else x) hl
      simpa [hid] using hmap
    · intro l2 hl2 hid2
      rw [hdb2] at hl2
      rcases List.mem_map.mp hl2 with ⟨x, hx, rfl⟩
      by_cases hxid : (x.id == leaderId) = true
      · rw [if_pos hxid]
        exact ⟨rfl, rfl⟩
      · rw [if_neg hxid] at hid2
        exact absurd (by simp [hid2]) hxid

/-- Witness for C8: the submitter (non-admin) updates the approved sample
leader; the stored row comes back pending with the re-approval comment. -/
theorem C8_updateLeader_status_witness :
    (applyLeaderUpdate leaderA ldInput "pending"
      (some "User updated details. Pending re-approval.")).status = "pending" ∧
    (applyLeaderUpdate leaderA ldInput "pending"
      (some "User updated details. Pending re-approval.")).adminComment =
      some "User updated details. Pending re-approval." := by
  have h := C8_updateLeader_status db0 "L1" ldInput (some "U1") false
    ({ db0 with leaders := [applyLeaderUpdate leaderA ldInput "pending"
        (some "User updated details. Pending re-approval.")] })
    (some (applyLeaderUpdate leaderA ldInput "pending"
      (some "User updated details. Pending re-approval.")))
    (by decide) rfl
  exact (h leaderA (by decide) rfl).2 _ (List.mem_singleton.mpr rfl) rfl

/-- When some entry's upsert fails, the `updateSettings` loop throws
`Failed to update setting: <key>` for a failing key. -/
lemma updateSettingsLoop_error (errs : String → Bool) :
    ∀ (entries rows : List (String × Option String)),
      (∃ e ∈ entries, errs e.1 = true) →
      ∃ k, errs k = true ∧
        updateSettingsLoop rows entries errs =
          Except.error ("Failed to update setting: " ++ k) := by
  intro entries
  induction entries with
  | nil =>
    intro rows h
    rcases h with ⟨e, he, _⟩
    cases he
  | cons e rest ih =>
    intro rows h
    rcases e with ⟨k, v⟩
    by_cases hk : errs k = true
    · exact ⟨k, hk, by simp [updateSettingsLoop, hk]⟩
    · rcases h with ⟨e2, he2, herr2⟩
      rcases List.mem_cons.mp he2 with rfl | hmem
      · exact absurd herr2 hk
      · obtain ⟨k2, hk2, hloop⟩ := ih (upsertKV rows k v) ⟨e2, hmem, herr2⟩
        exact ⟨k2, hk2, by simp [updateSettingsLoop, hk, hloop]⟩

/-- C5 counterexample: `addUser` does not throw when the backing store
reports an error on its insert — it logs and returns `null`. -/
theorem C5_addUser_counterexample :
    ¬ (∀ (db : Db) (u : NewUserInput) (now : Int),
        ∃ msg, addUser db u true now = Except.error msg) := by
  intro h
  obtain ⟨msg, hmsg⟩ := h emptyDb ⟨"a@b.c", none, none⟩ 0
  rw [show addUser emptyDb ⟨"a@b.c", none, none⟩ true 0 =
    Except.ok (none, emptyDb) from rfl] at hmsg
  exact absurd hmsg (by simp)

/-- Claim C5 (amended): on a backing-store error, `addLeader` throws
`Failed to add leader` and `updateSettings` throws
`Failed to update setting: <key>` naming a failing key; `addUser`, by
exception, does not throw — it logs and returns `null`. -/
theorem C5_write_errors (db : Db) (ld : LeaderData) (uid : Option String)
    (now : Int) (u : NewUserInput)
    (entries : List (String × Option String)) (errs : String → Bool) :
    addLeader db ld uid now true = Except.error "Failed to add leader" ∧
    addUser db u true now = Except.ok (none, db) ∧
    ((∃ e ∈ entries, errs e.1 = true) →
      ∃ k, errs k = true ∧
        updateSettings db entries errs =
          Except.error ("Failed to update setting: " ++ k)) := by
  refine ⟨rfl, rfl, fun h => ?_⟩
  obtain ⟨k, hk, hloop⟩ := updateSettingsLoop_error errs entries db.settings h
  exact ⟨k, hk, by simp [updateSettings, hloop]⟩

/-- Witness for C5 (amended) at concrete inputs. -/
theorem C5_write_errors_witness :
    addLeader db0 ldInput (some "U1") 99 true =
      Except.error "Failed to add leader" ∧
    addUser db0 ⟨"bob@x.com", some "pw", none⟩ true 99 = Except.ok (none, db0) ∧
    (∃ k, (fun (_ : String) => true) k = true ∧
      updateSettings db0 [("maintenance_active", some "true")]
          (fun _ => true) =
        Except.error ("Failed to update setting: " ++ k)) := by
  have h := C5_write_errors db0 ldInput (some "U1") 99
    ⟨"bob@x.com", some "pw", none⟩ [("maintenance_active", some "true")]
    (fun _ => true)
  exact ⟨h.1, h.2.1, h.2.2 ⟨("maintenance_active", some "true"), by simp, rfl⟩⟩

/-- Erasing the password twice is the same as erasing it once. -/
lemma erasePassword_idem (u : UserRow) :
    erasePassword (erasePassword u) = erasePassword u := rfl

/-- Filter-then-map results agree on stores that differ only in passwords,
when the filter and the map ignore the password. -/
lemma erase_filter_map_congr (p : UserRow → Bool)
    (hp : ∀ u, p (erasePassword u) = p u) {β : Type} (g : UserRow → β)
    (hg : ∀ u, g (erasePassword u) = g u) :
    ∀ us₁ us₂ : List UserRow, us₁.map erasePassword = us₂.map erasePassword →
      (us₁.filter p).map g = (us₂.filter p).map g := by
  intro us₁
  induction us₁ with
  | nil =>
    intro us₂ h
    rw [List.map_eq_nil_iff.mp h.symm]
  | cons u us ih =>
    intro us₂ h
    cases us₂ with
    | nil => simp at h
    | cons v vs =>
      simp only [List.map_cons, List.cons.injEq] at h
      obtain ⟨huv, hrest⟩ := h
      have hpuv : p u = p v := by rw [← hp u, huv, hp v]
      have hguv : g u = g v := by rw [← hg u, huv, hg v]
      by_cases hpu : p u = true
      · rw [List.filter_cons_of_pos hpu,
          List.filter_cons_of_pos (by rw [← hpuv]; exact hpu)]
        simp only [List.map_cons]
        rw [hguv, ih vs hrest]
      · rw [List.filter_cons_of_neg (by simpa using hpu),
          List.filter_cons_of_neg (by rw [← hpuv]; simpa using hpu)]
        exact ih vs hrest

/-- Map-only version of `erase_filter_map_congr`. -/
lemma erase_map_congr {β : Type} (g : UserRow → β)
    (hg : ∀ u, g (erasePassword u) = g u) :
    ∀ us₁ us₂ : List UserRow, us₁.map erasePassword = us₂.map erasePassword →
      us₁.map g = us₂.map g := by
  intro us₁
  induction us₁ with
  | nil =>
    intro us₂ h
    rw [List.map_eq_nil_iff.mp h.symm]
  | cons u us ih =>
    intro us₂ h
    cases us₂ with
    | nil => simp at h
    | cons v vs =>
      simp only [List.map_cons, List.cons.injEq] at h
      obtain ⟨huv, hrest⟩ := h
      have hguv : g u = g v := by rw [← hg u, huv, hg v]
      simp only [List.map_cons]
      rw [hguv, ih vs hrest]

/-- Password-erased `find?` results agree on stores that differ only in
passwords, when the predicate ignores the password. -/
lemma erase_find_congr (p : UserRow → Bool)
    (hp : ∀ u, p (erasePassword u) = p u) :
    ∀ us₁ us₂ : List UserRow, us₁.map erasePassword = us₂.map erasePassword →
      (us₁.find? p).map erasePassword = (us₂.find? p).map erasePassword := by
  intro us₁
  induction us₁ with
  | nil =>
    intro us₂ h
    rw [List.map_eq_nil_iff.mp h.symm]
  | cons u us ih =>
    intro us₂ h
    cases us₂ with
    | nil => simp at h
    | cons v vs =>
      simp only [List.map_cons, List.cons.injEq] at h
      obtain ⟨huv, hrest⟩ := h
      have hpuv : p u = p v := by rw [← hp u, huv, hp v]
      by_cases hpu : p u = true
      · rw [List.find?_cons_of_pos _ hpu, List.find?_cons_of_pos _ (hpuv ▸ hpu)]
        simp [huv]
      · rw [List.find?_cons_of_neg _ (by simpa using hpu),
          List.find?_cons_of_neg _ (by rw [← hpuv]; simpa using hpu)]
        exact ih vs hrest

/-- Claim C10: `getUsers`, `findUserById` and `addUser` strip the stored
password before returning, so their results are identical on any two stores
differing only in password values; `findUserByEmail`, by contrast, returns
the stored row itself, password intact. -/
theorem C10_password_privacy (base : Db) (us₁ us₂ : List UserRow)
    (h : us₁.map erasePassword = us₂.map erasePassword)
    (q : Option String) (err : Bool) (uid email : String)
    (u : NewUserInput) (now : Int) :
    getUsers { base with users := us₁ } q err =
      getUsers { base with users := us₂ } q err ∧
    findUserById { base with users := us₁ } uid err =
      findUserById { base with users := us₂ } uid err ∧
    (∀ outs, getUsers { base with users := us₁ } q err = Except.ok outs →
      ∀ o ∈ outs, o.user.password = none) ∧
    (∀ r, findUserById { base with users := us₁ } uid err = Except.ok r →
      ∀ x ∈ r, x.password = none) ∧
    (∀ r db2, addUser { base with users := us₁ } u err now = Except.ok (r, db2) →
      ∀ x ∈ r, x.password = none) ∧
    (∀ x, findUserByEmail { base with users := us₁ } email err = Except.ok (some x) →
      x ∈ us₁) := by
  have hgout : ∀ v : UserRow,
      (fun w : UserRow =>
        ({ user := erasePassword w
           ratingCount := (base.ratings.filter (fun r => r.userId == w.id)).length
           leaderAddedCount :=
             (base.leaders.filter (fun l => l.addedByUserId == some w.id)).length
           messageCount :=
             (base.adminMessages.filter (fun m => m.userId == w.id)).length } : UserOut))
        (erasePassword v) =
      (fun w : UserRow =>
        ({ user := erasePassword w
           ratingCount := (base.ratings.filter (fun r => r.userId == w.id)).length
           leaderAddedCount :=
             (base.leaders.filter (fun l => l.addedByUserId == some w.id)).length
           messageCount :=
             (base.adminMessages.filter (fun m => m.userId == w.id)).length } : UserOut))
        v := fun v => rfl
  refine ⟨?_, ?_, ?_, ?_, ?_, ?_⟩
  · cases err with
    | true => rfl
    | false =>
      rcases q with _ | st
      · simp only [getUsers, Bool.false_eq_true, if_false]
        exact congrArg Except.ok (erase_map_congr _ hgout us₁ us₂ h)
      · simp only [getUsers, Bool.false_eq_true, if_false]
        by_cases hst : (st.trim != "") = true
        · rw [if_pos hst, if_pos hst]
          exact congrArg Except.ok
            (erase_filter_map_congr (matchesSearch st.trim) (fun v => rfl) _ hgout us₁ us₂ h)
        · rw [if_neg hst, if_neg hst]
          exact congrArg Except.ok (erase_map_congr _ hgout us₁ us₂ h)
  · cases err with
    | true => rfl
    | false =>
      simp only [findUserById, Bool.false_eq_true, if_false]
      exact congrArg Except.ok
        (erase_find_congr (fun v => v.id == uid) (fun v => rfl) us₁ us₂ h)
  · intro outs houts o ho
    cases err with
    | true =>
      rw [show getUsers { base with users := us₁ } q true = Except.ok [] from rfl]
        at houts
      cases houts
      cases ho
    | false =>
      simp only [getUsers, Bool.false_eq_true, if_false, Except.ok.injEq] at houts
      subst houts
      rcases List.mem_map.mp ho with ⟨v, hv, rfl⟩
      rfl
  · intro r hr x hx
    cases err with
    | true =>
      rw [show findUserById { base with users := us₁ } uid true =
        Except.ok none from rfl] at hr
      cases hr
      cases hx
    | false =>
      simp only [findUserById, Bool.false_eq_true, if_false, Except.ok.injEq] at hr
      subst hr
      rcases hfind : us₁.find? (fun v => v.id == uid) with _ | v
      · rw [hfind] at hx
        cases hx
      · rw [hfind] at hx
        rcases hx with ⟨rfl⟩ | _
        rfl
  · intro r db2 hr x hx
    cases err with
    | true =>
      simp only [addUser, if_true, Except.ok.injEq, Prod.mk.injEq] at hr
      rw [← hr.1] at hx
      cases hx
    | false =>
      simp only [addUser, Bool.false_eq_true, if_false, Except.ok.injEq,
        Prod.mk.injEq] at hr
      rw [← hr.1] at hx
      rcases hx with ⟨rfl⟩ | _
      rfl
  · intro x hx
    cases err with
    | true =>
      rw [show findUserByEmail { base with users := us₁ } email true =
        Except.ok none from rfl] at hx
      simp at hx
    | false =>
      simp only [findUserByEmail, Bool.false_eq_true, if_false,
        Except.ok.injEq] at hx
      exact List.mem_of_find?_eq_some hx

/-- Witness for C10: two sample stores differing only in a stored password
give identical `getUsers` and `findUserById` results. -/
theorem C10_password_privacy_witness :
    getUsers { db0 with users := [userA] } none false =
      getUsers { db0 with users := [userB] } none false ∧
    findUserById { db0 with users := [userA] } "U1" false =
      findUserById { db0 with users := [userB] } "U1" false := by
  have h := C10_password_privacy db0 [userA] [userB] (by decide) none false "U1"
    "alice@example.com" ⟨"bob@x.com", some "pw", none⟩ 0
  exact ⟨h.1, h.2.1⟩

/-- Sums of pointwise sums of naturals split. -/
lemma nat_sum_map_add {α : Type} (l : List α) (f g : α → ℕ) :
    (l.map (fun x => f x + g x)).sum = (l.map f).sum + (l.map g).sum := by
  induction l with
  | nil => simp
  | cons x xs ih =>
    simp only [List.map_cons, List.sum_cons, ih]
    omega

/-- Counting one more answer adds its indicator to each option tally. -/
lemma optionCount_cons (a : PollAnswerRow) (as : List PollAnswerRow)
    (oid : String) :
    optionCount (a :: as) oid =
      optionCount as oid + (if a.selected_option_id = oid then 1 else 0) := by
  by_cases h : a.selected_option_id = oid
  · simp [optionCount, List.filter_cons, h]
  · simp [optionCount, List.filter_cons, h]

/-- The indicator sum over the options equals the number of options carrying
the selected id. -/
lemma sum_indicator_opts (opts : List PollOptionRow) (x : String) :
    (opts.map (fun o => if x = o.id then (1 : ℕ) else 0)).sum =
      (opts.filter (fun o => o.id == x)).length := by
  induction opts with
  | nil => simp
  | cons o os ih =>
    by_cases h : x = o.id
    · subst h
      simp [List.filter_cons, ih]
      omega
    · have h2 : ¬ o.id = x := fun heq => h heq.symm
      simp [List.filter_cons, h, h2, ih]

/-- With unique option ids, an id present among the options is carried by
exactly one option. -/
lemma filter_id_length_one (opts : List PollOptionRow) (x : String)
    (hnodup : (opts.map (fun o => o.id)).Nodup)
    (hmem : x ∈ opts.map (fun o => o.id)) :
    (opts.filter (fun o => o.id == x)).length = 1 := by
  induction opts with
  | nil => cases hmem
  | cons o os ih =>
    rw [List.map_cons, List.nodup_cons] at hnodup
    rcases List.mem_cons.mp hmem with heq | hmem2
    · have heqx : x = o.id := heq
      rw [List.filter_cons_of_pos (by simp [heqx])]
      have hnil : os.filter (fun o2 => o2.id == x) = [] := by
        rw [List.filter_eq_nil_iff]
        intro a ha
        simp only [beq_iff_eq]
        intro heq2
        apply hnodup.1
        have hm2 : a.id ∈ os.map (fun o2 => o2.id) := List.mem_map_of_mem _ ha
        rw [heq2, heqx] at hm2
        exact hm2
      rw [List.length_cons, hnil]
      rfl
    · have hne : ¬ o.id = x := by
        intro heq
        exact hnodup.1 (heq ▸ hmem2)
      rw [List.filter_cons_of_neg (by simp [hne])]
      exact ih hnodup.2 hmem2

/-- With unique option ids and referential integrity of the answers, the
per-option tallies sum to the total number of answers. -/
lemma sum_optionCount (opts : List PollOptionRow) :
    ∀ answers : List PollAnswerRow,
      (opts.map (fun o => o.id)).Nodup →
      (∀ a ∈ answers, a.selected_option_id ∈ opts.map (fun o => o.id)) →
      (opts.map (fun o => optionCount answers o.id)).sum = answers.length := by
  intro answers
  induction answers with
  | nil =>
    intro _ _
    simp [optionCount]
  | cons a as ih =>
    intro hnodup href
    have h1 : (opts.map (fun o => optionCount (a :: as) o.id)).sum =
        (opts.map (fun o => optionCount as o.id)).sum +
        (opts.map (fun o => if a.selected_option_id = o.id then (1 : ℕ) else 0)).sum := by
      rw [← nat_sum_map_add]
      congr 1
      apply List.map_congr_left
      intro o _
      exact optionCount_cons a as o.id
    rw [h1, sum_indicator_opts,
      filter_id_length_one opts _ hnodup (href a (List.mem_cons_self a as)),
      ih hnodup (fun x hx => href x (List.mem_cons_of_mem a hx))]
    simp

/-- Division distributes over a list sum. -/
lemma rat_sum_map_div {α : Type} (l : List α) (f : α → ℚ) (T : ℚ) :
    (l.map (fun x => f x / T)).sum = (l.map f).sum / T := by
  induction l with
  | nil => simp
  | cons x xs ih => simp [ih, add_div]

/-- Multiplication by a constant distributes over a list sum. -/
lemma rat_sum_map_mul {α : Type} (l : List α) (f : α → ℚ) (c : ℚ) :
    (l.map (fun x => f x * c)).sum = (l.map f).sum * c := by
  induction l with
  | nil => simp
  | cons x xs ih => simp [ih, add_mul]

/-- Casting naturals commutes with list sums. -/
lemma rat_sum_map_natCast {α : Type} (l : List α) (f : α → ℕ) :
    (l.map (fun x => (f x : ℚ))).sum = ((l.map f).sum : ℚ) := by
  induction l with
  | nil => simp
  | cons x xs ih => simp [ih]

/-- Rounding each element moves a list sum by at most half the length. -/
lemma abs_list_round_sum (l : List ℚ) :
    |(l.map (fun x => ((round x : ℤ) : ℚ))).sum - l.sum| ≤ l.length / 2 := by
  induction l with
  | nil => simp
  | cons x xs ih =>
    simp only [List.map_cons, List.sum_cons, List.length_cons]
    have h1 : |((round x : ℤ) : ℚ) - x| ≤ 1 / 2 := by
      rw [abs_sub_comm]
      exact abs_sub_round x
    have h2 : (((round x : ℤ) : ℚ) + (xs.map (fun y => ((round y : ℤ) : ℚ))).sum) -
        (x + xs.sum) =
        (((round x : ℤ) : ℚ) - x) +
        ((xs.map (fun y => ((round y : ℤ) : ℚ))).sum - xs.sum) := by ring
    rw [h2]
    have h3 := abs_add (((round x : ℤ) : ℚ) - x)
      ((xs.map (fun y => ((round y : ℤ) : ℚ))).sum - xs.sum)
    have h4 := add_le_add h1 ih
    have h5 : (1 : ℚ) / 2 + (xs.length : ℚ) / 2 = ((xs.length + 1 : ℕ) : ℚ) / 2 := by
      push_cast
      ring
    rw [h5] at h4
    exact le_trans h3 h4

/-- Claim C2: in `getPollResults`, each option's percentage is the rounded
share of answers selecting it (0 when the question has no answers), and for a
question with answers the percentages sum to 100 up to rounding error (at
most half a point per option). -/
theorem C2_poll_percentages (pollId : String) (p : PollRow) (q : PollQuestionRow)
    (hq : q ∈ p.poll_questions)
    (hnodup : (q.poll_options.map (fun o => o.id)).Nodup)
    (href : ∀ a ∈ q.poll_answers,
      a.selected_option_id ∈ q.poll_options.map (fun o => o.id)) :
    questionResult pollId q ∈ getPollResults pollId (some p) ∧
    (∀ o ∈ (questionResult pollId q).options,
      o.percentage = pct o.count q.poll_answers.length) ∧
    ((questionResult pollId q).options.map (fun o => o.count) =
      q.poll_options.map (fun o => optionCount q.poll_answers o.id)) ∧
    (0 < q.poll_answers.length →
      |(((questionResult pollId q).options.map (fun o => (o.percentage : ℚ))).sum) -
        100| ≤ (q.poll_options.length : ℚ) / 2) := by
  have hcounts : (questionResult pollId q).options.map (fun o => o.count) =
      q.poll_options.map (fun o => optionCount q.poll_answers o.id) := by
    show (q.poll_options.map (fun o =>
        ({ optionId := o.id, optionText := o.option_text,
           count := optionCount q.poll_answers o.id,
           percentage := pct (optionCount q.poll_answers o.id)
             q.poll_answers.length } : OptionResult))).map (fun o => o.count) = _
    rw [List.map_map]
    rfl
  refine ⟨List.mem_map_of_mem _ hq, ?_, hcounts, ?_⟩
  · intro o ho
    rcases List.mem_map.mp ho with ⟨op, hop, rfl⟩
    rfl
  · intro hT
    have hTne : ((q.poll_answers.length : ℚ)) ≠ 0 := by
      exact_mod_cast Nat.pos_iff_ne_zero.mp hT
    have hmap : (questionResult pollId q).options.map (fun o => (o.percentage : ℚ)) =
        (q.poll_options.map (fun o =>
          ((optionCount q.poll_answers o.id : ℚ) * 100 / (q.poll_answers.length : ℚ)))).map
          (fun x => ((round x : ℤ) : ℚ)) := by
      show (q.poll_options.map (fun o =>
          ({ optionId := o.id, optionText := o.option_text,
             count := optionCount q.poll_answers o.id,
             percentage := pct (optionCount q.poll_answers o.id)
               q.poll_answers.length } : OptionResult))).map
          (fun o => (o.percentage : ℚ)) = _
      rw [List.map_map, List.map_map]
      apply List.map_congr_left
      intro o _
      show ((pct (optionCount q.poll_answers o.id) q.poll_answers.length : ℤ) : ℚ) = _
      rw [pct, if_pos hT]
      rfl
    rw [hmap]
    have hsum : (q.poll_options.map (fun o =>
        ((optionCount q.poll_answers o.id : ℚ) * 100 /
          (q.poll_answers.length : ℚ)))).sum = 100 := by
      rw [rat_sum_map_div, rat_sum_map_mul, rat_sum_map_natCast,
        sum_optionCount q.poll_options q.poll_answers hnodup href]
      field_simp
    have hbound := abs_list_round_sum (q.poll_options.map (fun o =>
      ((optionCount q.poll_answers o.id : ℚ) * 100 / (q.poll_answers.length : ℚ))))
    rw [hsum, List.length_map] at hbound
    exact hbound

/-- Witness for C2: a question with two options and three answers (two for
O1, one for O2) gives percentages 67 and 33, summing within one point of 100. -/
theorem C2_poll_percentages_witness :
    questionResult "P1" sampleQ ∈ getPollResults "P1" (some samplePoll) ∧
    |(((questionResult "P1" sampleQ).options.map (fun o => (o.percentage : ℚ))).sum) -
      100| ≤ (sampleQ.poll_options.length : ℚ) / 2 := by
  have h := C2_poll_percentages "P1" samplePoll sampleQ (by decide) (by decide)
    (by decide)
  exact ⟨h.1, h.2.2.2 (by decide)⟩
